import Mathlib

/-!
Verification of the cloud-location resolution logic of
`sdk/storage/src/cloud_location.rs`: the `CloudLocation` enum, its
`url`, `credentials` and `find_cloud_name` operations, and the reverse
parse `TryFrom<&Url> for CloudLocation`.

External collaborators that are not part of the shown sources (the
`ServiceType` enum, the `StorageCredentials` type, the `url` crate) are
modelled from the specification, with a doc comment naming what is
modelled.  Ambient process state (environment variables, the config
file) is made explicit as an `EnvState` value threaded through the
functions that read it.
-/

/-! ## Basic character and list utilities (mirroring Rust std string ops) -/

/-- ASCII whitespace test, used to model Rust `str::trim` on the ASCII
configuration lines the code reads. -/
def isWs (c : Char) : Bool :=
  c == ' ' || c == '\t' || c == '\n' || c == '\r'

/-- Trim whitespace from both ends of a character list. -/
def trimL (l : List Char) : List Char :=
  ((l.dropWhile isWs).reverse.dropWhile isWs).reverse

/-- Model of Rust `str::trim` (restricted to ASCII whitespace). -/
def strTrim (s : String) : String := ⟨trimL s.data⟩

/-- Longest `(front, back)` split of a list such that no character of
`front` satisfies `stop`; `back` is empty or begins with a stop character. -/
def spanNot (stop : Char → Bool) : List Char → List Char × List Char
  | [] => ([], [])
  | c :: cs =>
    if stop c then ([], c :: cs)
    else
      match spanNot stop cs with
      | (a, b) => (c :: a, b)

/-- Split a list at every occurrence of `sep`, keeping empty pieces,
like Rust `str::split`.  The result is always nonempty. -/
def splitOnCh (sep : Char) : List Char → List (List Char)
  | [] => [[]]
  | c :: cs =>
    match splitOnCh sep cs with
    | [] => [[]]
    | r :: rs => if c == sep then [] :: r :: rs else (c :: r) :: rs

/-- Model of Rust `str::split_once`: split at the first occurrence of
`sep`, or `none` when `sep` does not occur. -/
def splitOnceCh (sep : Char) : List Char → Option (List Char × List Char)
  | [] => none
  | c :: cs =>
    if c == sep then some ([], cs)
    else
      match splitOnceCh sep cs with
      | none => none
      | some (a, b) => some (c :: a, b)

/-- Model of Rust `str::split_once` on strings. -/
def strSplitOnce (s : String) (sep : Char) : Option (String × String) :=
  match splitOnceCh sep s.data with
  | none => none
  | some (a, b) => some (⟨a⟩, ⟨b⟩)

/-- Model of Rust `str::split_terminator(sep)`: like `split`, except a
final empty piece (produced by a trailing separator, or by the empty
string) is skipped. -/
def rustSplitTerminator (s : String) (sep : Char) : List String :=
  let parts := splitOnCh sep s.data
  let parts := if parts.getLastD ['.'] = [] then parts.dropLast else parts
  parts.map fun l => (⟨l⟩ : String)

/-- Model of Rust `str::trim_start_matches('/')`: drop every leading slash. -/
def trimStartSlash (s : String) : String :=
  ⟨s.data.dropWhile fun c => c == '/'⟩

/-- List-level string prefix test. -/
def startsWithL : List Char → List Char → Bool
  | _, [] => true
  | [], _ :: _ => false
  | c :: cs, p :: ps => c == p && startsWithL cs ps

/-- Model of Rust `str::starts_with`. -/
def strStartsWith (s pre : String) : Bool := startsWithL s.data pre.data

/-- Join a list of strings with `.` separators, modelling Rust
`Vec::join(".")` as used on host labels. -/
def intercalateDot : List String → String
  | [] => ""
  | [s] => s
  | s :: rest => s ++ "." ++ intercalateDot rest

/-- Numeric value of a list of decimal digit characters. -/
def digitsVal (l : List Char) : Nat :=
  l.foldl (fun n c => n * 10 + (c.toNat - 48)) 0

/-! ## Modelled URL type and parser -/

/-- Modelled from the spec: the host of a parsed URL as exposed by the
external `url` crate (`url::Host`), restricted to the two forms the
code distinguishes: an IPv4 literal or a registered domain name.
IPv6 hosts are not modelled; bracketed authorities fail to parse. -/
inductive UrlHost
  | ipv4 (address : String)
  | domain (name : String)
deriving DecidableEq

/-- The textual form of a host (Rust `Url::host_str` / `Display` of
`url::Host`). -/
def UrlHost.str : UrlHost → String
  | .ipv4 a => a
  | .domain d => d

/-- Modelled from the spec: the parsed-URL record of the external `url`
crate, restricted to the components the code consumes: scheme, host,
explicit (non-default) port, serialized path, and raw query string. -/
structure Url where
  scheme : String
  host : Option UrlHost
  port : Option Nat
  path : String
  query : Option String
deriving DecidableEq

/-- Characters admitted in a host by the modelled parser: lowercase
ASCII letters, digits, `-`, `_` and `.` (no percent-encoding, no
case normalization, no internationalized names). -/
def hostChar (c : Char) : Bool :=
  ('a' ≤ c && c ≤ 'z') || ('0' ≤ c && c ≤ '9') || c == '-' || c == '_' || c == '.'

/-- Parse the port part left by the authority split (empty, or `:` then
digits), returning `none` on a malformed or out-of-range port, and
normalizing a default port (`http`/80, `https`/443) to "no port",
as the external `url` crate does. -/
def parsePort (scheme : String) (portCs : List Char) : Option (Option Nat) :=
  match portCs with
  | [] => some none
  | _ :: ps =>
    if ps = [] then some none
    else if ps.all Char.isDigit then
      if digitsVal ps < 65536 then
        if (scheme = "http" ∧ digitsVal ps = 80) ∨ (scheme = "https" ∧ digitsVal ps = 443)
          then some none
          else some (some (digitsVal ps))
      else none
    else none

/-- Parse a host: nonempty, all characters admissible; a host whose
labels form a dotted decimal quad in range is an IPv4 literal
(serialized canonically); a host whose last label is numeric but which
is not a valid IPv4 literal is rejected; anything else is a domain. -/
def parseHost (hostCs : List Char) : Option UrlHost :=
  if hostCs.isEmpty then none
  else if hostCs.all hostChar then
    let labels := splitOnCh '.' hostCs
    if labels.length = 4 ∧ labels.all (fun lab => !lab.isEmpty && lab.all Char.isDigit) = true then
      if (labels.map digitsVal).all (· ≤ 255) then
        some (.ipv4 (intercalateDot ((labels.map digitsVal).map toString)))
      else none
    else if labels.getLastD [] ≠ [] ∧ (labels.getLastD []).all Char.isDigit = true then none
    else some (.domain ⟨hostCs⟩)
  else none

/-- Parse an authority (the part between `//` and the first `/`, `?` or
`#`): reject user-info and bracketed hosts, split off an optional port
at the first `:`, then parse host and port. -/
def parseAuthority (scheme : String) (authCs : List Char) : Option (UrlHost × Option Nat) :=
  if authCs.any (fun c => c == '@' || c == '[' || c == ']') then none
  else
    match spanNot (fun c => c == ':') authCs with
    | (hostCs, portCs) =>
      match parsePort scheme portCs with
      | none => none
      | some port =>
        match parseHost hostCs with
        | none => none
        | some h => some (h, port)

/-- Modelled from the spec: the absolute-URL parser of the external
`url` crate (`Url::parse`), simplified to `scheme://authority/path?query`
with ASCII hosts: scheme is nonempty alphabetic and must be followed by
`://`; the authority runs to the first `/`, `?` or `#`; an empty path
serializes as `/`; the query is everything between `?` and `#`.
Any other shape fails to parse. -/
def parseChars (l : List Char) : Option Url :=
  match spanNot (fun c => c == ':') l with
  | (schemeCs, ':' :: '/' :: '/' :: rest2) =>
    if schemeCs ≠ [] ∧ schemeCs.all Char.isAlpha = true then
      match spanNot (fun c => c == '/' || c == '?' || c == '#') rest2 with
      | (authCs, rest3) =>
        match parseAuthority ⟨schemeCs⟩ authCs with
        | none => none
        | some (h, port) =>
          match spanNot (fun c => c == '?' || c == '#') rest3 with
          | (pathCs, rest4) =>
            let path := if pathCs.isEmpty then "/" else (⟨pathCs⟩ : String)
            let query : Option String :=
              match rest4 with
              | '?' :: qs => some ⟨(spanNot (fun c => c == '#') qs).1⟩
              | _ => none
            some { scheme := ⟨schemeCs⟩, host := some h, port := port, path := path, query := query }
    else none
  | _ => none

/-- String-level entry point of the modelled URL parser. -/
def Url.parse (s : String) : Option Url := parseChars s.data

/-! ## Data model of `cloud_location.rs` -/

/-- Modelled from the spec: the external `ServiceType` enumeration
(blob, table, queue, file), consumed but not owned by this module. -/
inductive ServiceType
  | Blob
  | Table
  | Queue
  | File
deriving DecidableEq

/-- Modelled from the spec: the DNS subdomain label of a service type. -/
def ServiceType.subdomain : ServiceType → String
  | .Blob => "blob"
  | .Table => "table"
  | .Queue => "queue"
  | .File => "file"

/-- Modelled from the spec: the external opaque `StorageCredentials`
value with shared-key, SAS-token and anonymous variants; this module
never inspects its contents. -/
inductive StorageCredentials
  | Key (account : String) (key : String)
  | SASToken (token : String)
  | Anonymous
deriving DecidableEq

/-- The error value surfaced to callers (`azure_core::Error`), reduced
to the taxonomy the spec gives: URL-parse failure (carrying the
offending input), data-conversion failure, and other failures, the
latter two carrying their message. -/
inductive AzError
  | parseError (input : String)
  | dataConversion (msg : String)
  | other (msg : String)
deriving DecidableEq

/-- Modelled from the spec: `StorageCredentials::sas_token` (not among
the shown sources) builds a SAS-token credential from the entire raw
query string, not parsed into key/value pairs; the fallible signature
matches the call site `StorageCredentials::sas_token(token)?`. -/
def StorageCredentials.sasToken (token : String) : Except AzError StorageCredentials :=
  .ok (.SASToken token)

/-- The `CloudLocation` enum of `cloud_location.rs`. -/
inductive CloudLocation
  | Public (account : String) (credentials : StorageCredentials)
  | China (account : String) (credentials : StorageCredentials)
  | USGov (account : String) (credentials : StorageCredentials)
  | Emulator (address : String) (port : Nat)
  | AutoDetect (account : String) (credentials : StorageCredentials)
  | Custom (uri : String) (credentials : StorageCredentials)
deriving DecidableEq

/-- Constant `AZURE_CLOUD`. -/
def AZURE_CLOUD : String := "AzureCloud"

/-- Constant `AZURE_PUBLIC_CLOUD`. -/
def AZURE_PUBLIC_CLOUD : String := "AzurePublicCloud"

/-- Constant `AZURE_CHINA_CLOUD`. -/
def AZURE_CHINA_CLOUD : String := "AzureChinaCloud"

/-- Constant `AZURE_US_GOV`. -/
def AZURE_US_GOV : String := "AzureUSGovernment"

/-- Constant `EMULATOR_ACCOUNT`: the well-known emulator account name. -/
def EMULATOR_ACCOUNT : String := "devstoreaccount1"

/-- Constant `EMULATOR_ACCOUNT_KEY`: the well-known emulator account key. -/
def EMULATOR_ACCOUNT_KEY : String :=
  "Eby8vdM02xNOcqFlqUwJPLlmEtlCDXJ1OUzFT50uSRZ6IFsuFq2UVErCz4I6tq/K1SZFPTOtr/KBHBeksoGMGw=="

/-- Static `EMULATOR_CREDENTIALS`: the fixed well-known key pair. -/
def EMULATOR_CREDENTIALS : StorageCredentials :=
  .Key EMULATOR_ACCOUNT EMULATOR_ACCOUNT_KEY

/-- The ambient process state read during auto-detection, made
explicit: the value of `AZURE_CLOUD_NAME` when that variable is set
(Rust `env::var` returns the value even when it is the empty string),
the value of `HOME` when set, and the lines of `$HOME/.azure/config`
when that file can be opened (`none` when missing or unreadable). -/
structure EnvState where
  azureCloudName : Option String
  home : Option String
  azureConfig : Option (List String)

/-- The config-file scan loop inside `find_cloud_name`: iterate the
lines; at a line trimming to `[cloud]`, consume the following line; if
that line splits at `=` with trimmed key `name`, return the trimmed
value; otherwise keep scanning after the consumed pair. -/
def scanConfig : List String → Option String
  | [] => none
  | line :: rest =>
    if strTrim line = "[cloud]" then
      match rest with
      | [] => none
      | nameLine :: rest2 =>
        match strSplitOnce nameLine '=' with
        | some (k, v) => if strTrim k = "name" then some (strTrim v) else scanConfig rest2
        | none => scanConfig rest2
    else scanConfig rest

/-- The action of the scan loop upon a `[cloud]` header: consume the
following line `l1`; return its trimmed value when it is a `name =
value` assignment with trimmed key `name`; otherwise continue scanning
the remaining lines. -/
def scanStep (l1 : String) (rest : List String) : Option String :=
  match strSplitOnce l1 '=' with
  | some (k, v) => if strTrim k = "name" then some (strTrim v) else scanConfig rest
  | none => scanConfig rest

/-- Function `CloudLocation::find_cloud_name`: the `AZURE_CLOUD_NAME` variable
when set; otherwise, when `HOME` is set and the config file opens, the
result of scanning its lines; otherwise no name. -/
def CloudLocation.findCloudName (env : EnvState) : Option String :=
  match env.azureCloudName with
  | some name => some name
  | none =>
    match env.home with
    | some _ =>
      match env.azureConfig with
      | some lines => scanConfig lines
      | none => none
    | none => none

/-- The message of the invalid-cloud-name error in the `AutoDetect` arm
of `url` (the `format!` with the four allowed constants interpolated). -/
def invalidCloudNameMsg : String :=
  "Auto-detect encountered an invalid cloud name, allowed values are: AzureCloud, AzurePublicCloud, AzureUSGovernment, AzureChinaCloud."

/-- The message of the discovery-failure error in the `AutoDetect` arm
of `url`. -/
def couldNotFindCloudMsg : String :=
  "Auto-detect could not find a cloud name from the current environment."

/-- Wrapper for `Ok(url::Url::parse(&url)?)`: parse the assembled
string, converting a parse failure into the error value. -/
def urlParseResult (s : String) : Except AzError Url :=
  match Url.parse s with
  | some u => .ok u
  | none => .error (.parseError s)

/-- Rank used only to justify termination of `CloudLocation.url`: the
single recursive call in the `AutoDetect` arm targets a concrete
sovereign variant. -/
def CloudLocation.rank : CloudLocation → Nat
  | .Public _ _ => 0
  | .China _ _ => 0
  | .USGov _ _ => 0
  | .Emulator _ _ => 0
  | .AutoDetect _ _ => 1
  | .Custom _ _ => 0

/-- Method `CloudLocation::url`: assemble the base URL string of the variant
and parse it; the `AutoDetect` arm first discovers the cloud name and
recurses into the matching concrete variant (with the same account and
credentials), or fails. -/
def CloudLocation.url (loc : CloudLocation) (env : EnvState) (st : ServiceType) :
    Except AzError Url :=
  match loc with
  | .Public account _ =>
    urlParseResult ("https://" ++ account ++ "." ++ st.subdomain ++ ".core.windows.net")
  | .China account _ =>
    urlParseResult ("https://" ++ account ++ "." ++ st.subdomain ++ ".core.chinacloudapi.cn")
  | .USGov account _ =>
    urlParseResult ("https://" ++ account ++ "." ++ st.subdomain ++ ".core.usgovcloudapi.net")
  | .Custom uri _ => urlParseResult uri
  | .Emulator address port =>
    urlParseResult ("http://" ++ address ++ ":" ++ toString port ++ "/" ++ EMULATOR_ACCOUNT)
  | .AutoDetect account credentials =>
    match CloudLocation.findCloudName env with
    | some name =>
      if name = AZURE_CLOUD ∨ name = AZURE_PUBLIC_CLOUD then
        (CloudLocation.Public account credentials).url env st
      else if name = AZURE_US_GOV then
        (CloudLocation.USGov account credentials).url env st
      else if name = AZURE_CHINA_CLOUD then
        (CloudLocation.China account credentials).url env st
      else .error (.other invalidCloudNameMsg)
    | none => .error (.other couldNotFindCloudMsg)
termination_by loc.rank
decreasing_by
  all_goals simp [CloudLocation.rank]

/-- Method `CloudLocation::credentials`: the stored credentials, except that
the emulator substitutes the fixed well-known pair. -/
def CloudLocation.credentials : CloudLocation → StorageCredentials
  | .Public _ c => c
  | .China _ c => c
  | .USGov _ c => c
  | .Custom _ c => c
  | .AutoDetect _ c => c
  | .Emulator _ _ => EMULATOR_CREDENTIALS

/-- Implementation of `TryFrom<&Url> for CloudLocation`.  The Rust guard
`path.starts_with(..) && url.has_host() && url.port().is_some()` is
embedded with the (necessarily true, since a host was already
extracted) `has_host` conjunct dropped and the port test commuted in
front of the path test, which preserves every outcome. -/
def CloudLocation.tryFrom (url : Url) : Except AzError CloudLocation :=
  match url.query with
  | none => .error (.dataConversion "unable to find SAS token in URL")
  | some token =>
    match StorageCredentials.sasToken token with
    | .error e => .error e
    | .ok credentials =>
      match url.host with
      | none => .error (.dataConversion "unable to find the target host in the URL")
      | some h =>
        let domain := rustSplitTerminator h.str '.'
        if domain.length < 2 then
          .error (.dataConversion
            ("URL refers to a domain that is not a Public or China domain: " ++ h.str))
        else
          let account := domain.headD ""
          let rest := intercalateDot (domain.drop 2)
          if rest = "core.windows.net" then .ok (.Public account credentials)
          else if rest = "core.chinacloudapi.cn" then .ok (.China account credentials)
          else if rest = "core.usgovcloudapi.net" then .ok (.USGov account credentials)
          else
            match url.port with
            | some p =>
              if strStartsWith (trimStartSlash url.path) EMULATOR_ACCOUNT then
                match h with
                | .ipv4 ip => .ok (.Emulator ip p)
                | .domain _ =>
                  .error (.dataConversion
                    ("Unsupported emulator URL, expected ipv4: " ++ h.str))
              else
                .error (.dataConversion
                  ("URL refers to a domain that is not a Emulator, Public, China, or USGov domain: " ++ h.str))
            | none =>
              .error (.dataConversion
                ("URL refers to a domain that is not a Emulator, Public, China, or USGov domain: " ++ h.str))

/-! ## Auxiliary definitions used to state the claims -/

/-- The home-directory config-file lookup that discovery falls through
to when `AZURE_CLOUD_NAME` is absent (the second and third steps of
`find_cloud_name`). -/
def homeConfigLookup (env : EnvState) : Option String :=
  match env.home with
  | some _ =>
    match env.azureConfig with
    | some lines => scanConfig lines
    | none => none
  | none => none

/-- A character of an account name that survives the modelled URL
parser inside a host and sits entirely inside the first host label:
admissible in a host and not a dot. -/
def accountChar (c : Char) : Bool := hostChar c && !(c == '.')

/-- Account strings for which the sovereign-cloud round trip holds:
every character is admissible in a host and none is a dot. -/
def accountOk (s : String) : Bool := s.data.all accountChar

/-- An environment with nothing set. -/
def env0 : EnvState := ⟨none, none, none⟩

/-- An environment selecting the US Government cloud by variable. -/
def envGov : EnvState := ⟨some "AzureUSGovernment", none, none⟩

/-- An environment whose `AZURE_CLOUD_NAME` is present but empty while
the config file names a cloud. -/
def envEmptyVar : EnvState :=
  ⟨some "", some "/home/user", some ["[cloud]", "name = AzureCloud"]⟩

/-- The parse of `https://test.blob.core.windows.net/?token=1`. -/
def urlRecPub : Url :=
  ⟨"https", some (.domain "test.blob.core.windows.net"), none, "/", some "token=1"⟩

/-- The parse of `https://test.blob.core.chinacloudapi.cn/?token=1`. -/
def urlRecChina : Url :=
  ⟨"https", some (.domain "test.blob.core.chinacloudapi.cn"), none, "/", some "token=1"⟩

/-- The parse of `http://127.0.0.1:5555/devstoreaccount1/?token=1`. -/
def urlRecEmu : Url :=
  ⟨"http", some (.ipv4 "127.0.0.1"), some 5555, "/devstoreaccount1/", some "token=1"⟩

/-- The parse of `https://a.b.blob.core.windows.net` (an account string
containing a dot). -/
def urlRecAB : Url :=
  ⟨"https", some (.domain "a.b.blob.core.windows.net"), none, "/", none⟩

/-! ## Equation lemmas for `CloudLocation.url` -/

theorem url_Public (a : String) (c : StorageCredentials) (env : EnvState) (st : ServiceType) :
    (CloudLocation.Public a c).url env st
      = urlParseResult ("https://" ++ a ++ "." ++ st.subdomain ++ ".core.windows.net") := by
  unfold CloudLocation.url
  rfl

theorem url_China (a : String) (c : StorageCredentials) (env : EnvState) (st : ServiceType) :
    (CloudLocation.China a c).url env st
      = urlParseResult ("https://" ++ a ++ "." ++ st.subdomain ++ ".core.chinacloudapi.cn") := by
  unfold CloudLocation.url
  rfl

theorem url_USGov (a : String) (c : StorageCredentials) (env : EnvState) (st : ServiceType) :
    (CloudLocation.USGov a c).url env st
      = urlParseResult ("https://" ++ a ++ "." ++ st.subdomain ++ ".core.usgovcloudapi.net") := by
  unfold CloudLocation.url
  rfl

theorem url_Custom (uri : String) (c : StorageCredentials) (env : EnvState) (st : ServiceType) :
    (CloudLocation.Custom uri c).url env st = urlParseResult uri := by
  unfold CloudLocation.url
  rfl

theorem url_Emulator (addr : String) (p : Nat) (env : EnvState) (st : ServiceType) :
    (CloudLocation.Emulator addr p).url env st
      = urlParseResult ("http://" ++ addr ++ ":" ++ toString p ++ "/" ++ EMULATOR_ACCOUNT) := by
  unfold CloudLocation.url
  rfl

theorem url_AutoDetect (a : String) (c : StorageCredentials) (env : EnvState) (st : ServiceType) :
    (CloudLocation.AutoDetect a c).url env st
      = match CloudLocation.findCloudName env with
        | some name =>
          if name = AZURE_CLOUD ∨ name = AZURE_PUBLIC_CLOUD then
            (CloudLocation.Public a c).url env st
          else if name = AZURE_US_GOV then
            (CloudLocation.USGov a c).url env st
          else if name = AZURE_CHINA_CLOUD then
            (CloudLocation.China a c).url env st
          else .error (.other invalidCloudNameMsg)
        | none => .error (.other couldNotFindCloudMsg) := by
  conv_lhs => rw [CloudLocation.url.eq_def]

/-- C8: `credentials()` is a total function of the location: on Public,
China, USGov, AutoDetect and Custom it returns the stored credentials
unmodified, and on Emulator it returns the fixed well-known pair built
from the well-known account name and key, regardless of the address and
port fields. -/
theorem claim_C8_credentials :
    (∀ a c, (CloudLocation.Public a c).credentials = c)
    ∧ (∀ a c, (CloudLocation.China a c).credentials = c)
    ∧ (∀ a c, (CloudLocation.USGov a c).credentials = c)
    ∧ (∀ a c, (CloudLocation.AutoDetect a c).credentials = c)
    ∧ (∀ uri c, (CloudLocation.Custom uri c).credentials = c)
    ∧ (∀ addr p, (CloudLocation.Emulator addr p).credentials = EMULATOR_CREDENTIALS)
    ∧ EMULATOR_CREDENTIALS
        = .Key "devstoreaccount1"
            "Eby8vdM02xNOcqFlqUwJPLlmEtlCDXJ1OUzFT50uSRZ6IFsuFq2UVErCz4I6tq/K1SZFPTOtr/KBHBeksoGMGw==" := by
  refine ⟨fun _ _ => rfl, fun _ _ => rfl, fun _ _ => rfl, fun _ _ => rfl,
    fun _ _ => rfl, fun _ _ => rfl, rfl⟩

/-- C10: for every variant other than AutoDetect, `url()` is
deterministic, independent of the ambient environment and of the stored
credentials; a Custom location in addition yields the same URL for any
two service types. -/
theorem claim_C10_url_pure :
    ∀ (env1 env2 : EnvState) (st st2 : ServiceType) (a uri addr : String)
      (c c2 : StorageCredentials) (p : Nat),
    (CloudLocation.Public a c).url env1 st = (CloudLocation.Public a c2).url env2 st
    ∧ (CloudLocation.China a c).url env1 st = (CloudLocation.China a c2).url env2 st
    ∧ (CloudLocation.USGov a c).url env1 st = (CloudLocation.USGov a c2).url env2 st
    ∧ (CloudLocation.Custom uri c).url env1 st = (CloudLocation.Custom uri c2).url env2 st2
    ∧ (CloudLocation.Emulator addr p).url env1 st = (CloudLocation.Emulator addr p).url env2 st2 := by
  intro env1 env2 st st2 a uri addr c c2 p
  exact ⟨by rw [url_Public, url_Public], by rw [url_China, url_China],
    by rw [url_USGov, url_USGov], by rw [url_Custom, url_Custom],
    by rw [url_Emulator, url_Emulator]⟩

/-- C2: an AutoDetect `url()` call behaves according to the discovered
cloud name: `AzureCloud` and `AzurePublicCloud` give exactly the Public
result with the same account and credentials, `AzureUSGovernment` the
USGov result, `AzureChinaCloud` the China result; any other discovered
name yields the error enumerating the allowed values; and when
discovery yields no name, the could-not-find error. -/
theorem claim_C2_autodetect :
    ∀ (env : EnvState) (a : String) (c : StorageCredentials) (st : ServiceType),
    (CloudLocation.findCloudName env = some "AzureCloud" →
      (CloudLocation.AutoDetect a c).url env st = (CloudLocation.Public a c).url env st)
    ∧ (CloudLocation.findCloudName env = some "AzurePublicCloud" →
      (CloudLocation.AutoDetect a c).url env st = (CloudLocation.Public a c).url env st)
    ∧ (CloudLocation.findCloudName env = some "AzureUSGovernment" →
      (CloudLocation.AutoDetect a c).url env st = (CloudLocation.USGov a c).url env st)
    ∧ (CloudLocation.findCloudName env = some "AzureChinaCloud" →
      (CloudLocation.AutoDetect a c).url env st = (CloudLocation.China a c).url env st)
    ∧ (∀ n, CloudLocation.findCloudName env = some n →
        n ≠ "AzureCloud" → n ≠ "AzurePublicCloud" → n ≠ "AzureUSGovernment" →
        n ≠ "AzureChinaCloud" →
        (CloudLocation.AutoDetect a c).url env st = .error (.other invalidCloudNameMsg))
    ∧ (CloudLocation.findCloudName env = none →
        (CloudLocation.AutoDetect a c).url env st = .error (.other couldNotFindCloudMsg)) := by
  intro env a c st
  refine ⟨fun h => ?_, fun h => ?_, fun h => ?_, fun h => ?_, fun n h h1 h2 h3 h4 => ?_,
    fun h => ?_⟩
  · rw [url_AutoDetect, h]; simp [AZURE_CLOUD, AZURE_PUBLIC_CLOUD]
  · rw [url_AutoDetect, h]; simp [AZURE_CLOUD, AZURE_PUBLIC_CLOUD]
  · rw [url_AutoDetect, h]; simp [AZURE_CLOUD, AZURE_PUBLIC_CLOUD, AZURE_US_GOV]
  · rw [url_AutoDetect, h]; simp [AZURE_CLOUD, AZURE_PUBLIC_CLOUD, AZURE_US_GOV, AZURE_CHINA_CLOUD]
  · rw [url_AutoDetect, h]
    simp [AZURE_CLOUD, AZURE_PUBLIC_CLOUD, AZURE_US_GOV, AZURE_CHINA_CLOUD, h1, h2, h3, h4]
  · rw [url_AutoDetect, h]

/-- Witness for C2 at a concrete environment selecting `AzureUSGovernment`. -/
theorem claim_C2_witness :
    (CloudLocation.AutoDetect "test" .Anonymous).url envGov .Blob
      = (CloudLocation.USGov "test" .Anonymous).url envGov .Blob :=
  (claim_C2_autodetect envGov "test" .Anonymous .Blob).2.2.1 (by decide)

/-- Counterexample for C3: with `AZURE_CLOUD_NAME` present but EMPTY
and a config file naming `AzureCloud`, the code uses the empty variable
value directly (Rust `env::var` succeeds on an empty value), while the
claim requires discovery to proceed to the config-file lookup, which
here would yield `AzureCloud`. -/
theorem claim_C3_counterexample :
    CloudLocation.findCloudName envEmptyVar = some ""
    ∧ homeConfigLookup envEmptyVar = some "AzureCloud"
    ∧ (some "" : Option String) ≠ some "AzureCloud" := by
  refine ⟨rfl, by decide, by decide⟩

/-- C3 as amended: if `AZURE_CLOUD_NAME` is present — even when its
value is empty — that value is used directly with no further lookup;
only when it is absent does discovery proceed to the home-directory
config-file lookup. -/
theorem claim_C3_envvar :
    ∀ (env : EnvState) (name : String),
    (env.azureCloudName = some name → CloudLocation.findCloudName env = some name)
    ∧ (env.azureCloudName = none → CloudLocation.findCloudName env = homeConfigLookup env) := by
  intro env name
  constructor
  · intro h
    unfold CloudLocation.findCloudName
    rw [h]
  · intro h
    unfold CloudLocation.findCloudName homeConfigLookup
    rw [h]

/-- Witness for C3 at the concrete environment with the empty variable. -/
theorem claim_C3_witness :
    CloudLocation.findCloudName envEmptyVar = some "" :=
  (claim_C3_envvar envEmptyVar "").1 (by decide)

/-- C1: `url()` on each non-AutoDetect variant returns exactly the
parse of the assembled string — `https://{account}.{subdomain}.{fixed
per-variant domain suffix}` for the sovereign clouds, the stored uri
unchanged for Custom, `http://{address}:{port}/devstoreaccount1` for
the Emulator — and when the assembled string does not parse as a URL,
the result is the URL-parse error instead of a URL. -/
theorem claim_C1_url_assembly :
    ∀ (a uri addr : String) (c : StorageCredentials) (st : ServiceType) (env : EnvState)
      (p : Nat),
    ((CloudLocation.Public a c).url env st
      = urlParseResult ("https://" ++ a ++ "." ++ st.subdomain ++ ".core.windows.net"))
    ∧ ((CloudLocation.China a c).url env st
      = urlParseResult ("https://" ++ a ++ "." ++ st.subdomain ++ ".core.chinacloudapi.cn"))
    ∧ ((CloudLocation.USGov a c).url env st
      = urlParseResult ("https://" ++ a ++ "." ++ st.subdomain ++ ".core.usgovcloudapi.net"))
    ∧ ((CloudLocation.Custom uri c).url env st = urlParseResult uri)
    ∧ ((CloudLocation.Emulator addr p).url env st
      = urlParseResult ("http://" ++ addr ++ ":" ++ toString p ++ "/" ++ EMULATOR_ACCOUNT))
    ∧ (∀ u, Url.parse uri = some u → (CloudLocation.Custom uri c).url env st = .ok u)
    ∧ (Url.parse uri = none →
        (CloudLocation.Custom uri c).url env st = .error (.parseError uri)) := by
  intro a uri addr c st env p
  refine ⟨url_Public a c env st, url_China a c env st, url_USGov a c env st,
    url_Custom uri c env st, url_Emulator addr p env st, fun u h => ?_, fun h => ?_⟩
  · rw [url_Custom]; unfold urlParseResult; rw [h]
  · rw [url_Custom]; unfold urlParseResult; rw [h]

/-- Witness for C1: the string `not a url` does not parse, and a Custom
location carrying it fails with the URL-parse error. -/
theorem claim_C1_witness :
    (CloudLocation.Custom "not a url" .Anonymous).url env0 .Blob
      = .error (.parseError "not a url") :=
  (claim_C1_url_assembly "a" "not a url" "x" .Anonymous .Blob env0 0).2.2.2.2.2.2 (by decide)

/-- Counterexample for C4: the first `[cloud]` header is not
immediately followed by a `name = value` line, yet the scan does not
stop — it consults the second `[cloud]` section and returns its value,
where the claim requires no match. -/
theorem claim_C4_counterexample :
    scanConfig ["[cloud]", "garbage", "[cloud]", "name = AzureChinaCloud"]
      = some "AzureChinaCloud"
    ∧ (some "AzureChinaCloud" : Option String) ≠ none := by
  exact ⟨by decide, by decide⟩

/-- C4 as amended: scanning proceeds in order; at the first line that
trims to `[cloud]`, the immediately following line is consumed; if it
is a `name = value` assignment whose trimmed key is `name`, the trimmed
value is returned; otherwise scanning continues with the lines after
the consumed pair — so a later `[cloud]` section can still produce a
match — and a file whose `[cloud]` header is its last line yields no
match. -/
theorem claim_C4_scan :
    ∀ (pre : List String) (hdr l1 : String) (rest : List String),
    (∀ x ∈ pre, strTrim x ≠ "[cloud]") → strTrim hdr = "[cloud]" →
    scanConfig (pre ++ hdr :: l1 :: rest) = scanStep l1 rest
    ∧ scanConfig (pre ++ [hdr]) = none := by
  intro pre hdr l1 rest hpre hhdr
  induction pre with
  | nil =>
    constructor
    · show scanConfig (hdr :: l1 :: rest) = _
      unfold scanConfig
      rw [if_pos hhdr]
      rfl
    · show scanConfig [hdr] = none
      unfold scanConfig
      rw [if_pos hhdr]
  | cons x xs ih =>
    have hx : strTrim x ≠ "[cloud]" := hpre x (List.mem_cons_self x xs)
    have hxs : ∀ y ∈ xs, strTrim y ≠ "[cloud]" := fun y hy => hpre y (List.mem_cons_of_mem x hy)
    have ih2 := ih hxs
    constructor
    · show scanConfig (x :: (xs ++ hdr :: l1 :: rest)) = _
      unfold scanConfig
      rw [if_neg hx]
      exact ih2.1
    · show scanConfig (x :: (xs ++ [hdr])) = none
      unfold scanConfig
      rw [if_neg hx]
      exact ih2.2

/-- Witness for C4 at a concrete file with a comment line before the
section header. -/
theorem claim_C4_witness :
    scanConfig ["; comment", " [cloud] ", "name = AzureCloud"] = some "AzureCloud" := by
  have h := (claim_C4_scan ["; comment"] " [cloud] " "name = AzureCloud" []
    (by intro x hx; simp at hx; subst hx; decide) (by decide)).1
  exact h.trans (by decide)

/-- C5: the reverse parse fails with a data-conversion error when the
URL has no query string; otherwise the credentials are a SAS token
carrying the entire raw query string; a URL without host fails; the
host is split on `.` and fewer than 2 labels fails; otherwise the first
label becomes the account, the second is discarded unvalidated, and the
remaining labels joined by `.` are matched against exactly the three
known cloud suffixes to produce Public, China or USGov. -/
theorem claim_C5_reverse_parse :
    ∀ (u : Url),
    (u.query = none →
      CloudLocation.tryFrom u = .error (.dataConversion "unable to find SAS token in URL"))
    ∧ (∀ t, u.query = some t → u.host = none →
      CloudLocation.tryFrom u = .error (.dataConversion "unable to find the target host in the URL"))
    ∧ (∀ t h, u.query = some t → u.host = some h →
      (rustSplitTerminator h.str '.').length < 2 →
      CloudLocation.tryFrom u = .error (.dataConversion
        ("URL refers to a domain that is not a Public or China domain: " ++ h.str)))
    ∧ (∀ t h, u.query = some t → u.host = some h →
      2 ≤ (rustSplitTerminator h.str '.').length →
      intercalateDot ((rustSplitTerminator h.str '.').drop 2) = "core.windows.net" →
      CloudLocation.tryFrom u
        = .ok (.Public ((rustSplitTerminator h.str '.').headD "") (.SASToken t)))
    ∧ (∀ t h, u.query = some t → u.host = some h →
      2 ≤ (rustSplitTerminator h.str '.').length →
      intercalateDot ((rustSplitTerminator h.str '.').drop 2) = "core.chinacloudapi.cn" →
      CloudLocation.tryFrom u
        = .ok (.China ((rustSplitTerminator h.str '.').headD "") (.SASToken t)))
    ∧ (∀ t h, u.query = some t → u.host = some h →
      2 ≤ (rustSplitTerminator h.str '.').length →
      intercalateDot ((rustSplitTerminator h.str '.').drop 2) = "core.usgovcloudapi.net" →
      CloudLocation.tryFrom u
        = .ok (.USGov ((rustSplitTerminator h.str '.').headD "") (.SASToken t))) := by
  intro u
  refine ⟨fun hq => ?_, fun t hq hh => ?_, fun t h hq hh hlen => ?_,
    fun t h hq hh hlen hrest => ?_, fun t h hq hh hlen hrest => ?_,
    fun t h hq hh hlen hrest => ?_⟩
  · unfold CloudLocation.tryFrom
    rw [hq]
  · unfold CloudLocation.tryFrom
    rw [hq, hh]
    rfl
  · simp only [CloudLocation.tryFrom, hq, hh, StorageCredentials.sasToken]
    rw [if_pos hlen]
  · simp only [CloudLocation.tryFrom, hq, hh, StorageCredentials.sasToken]
    rw [if_neg (by omega), if_pos hrest]
  · simp only [CloudLocation.tryFrom, hq, hh, StorageCredentials.sasToken, hrest]
    rw [if_neg (by omega)]
    rfl
  · simp only [CloudLocation.tryFrom, hq, hh, StorageCredentials.sasToken, hrest]
    rw [if_neg (by omega)]
    rfl

/-- Witness for C5 at the parse of `https://test.blob.core.windows.net/?token=1`. -/
theorem claim_C5_witness :
    CloudLocation.tryFrom urlRecPub
      = .ok (.Public "test" (.SASToken "token=1")) := by
  have h := (claim_C5_reverse_parse urlRecPub).2.2.2.1 "token=1"
    (.domain "test.blob.core.windows.net") (by decide) (by decide) (by decide) (by decide)
  exact h.trans (by rfl)

/-- C6: when the joined domain suffix matches none of the three known
cloud suffixes: with the leading-slash-stripped path starting with the
well-known emulator account name, a host, and an explicit port, an IPv4
host yields `Emulator` with that IP string and port; a non-IPv4 host in
that branch yields the unsupported-emulator error; and in every other
case the data-conversion error naming the unrecognized host. -/
theorem claim_C6_emulator_fallback :
    ∀ (u : Url) (t : String) (h : UrlHost),
    u.query = some t → u.host = some h →
    2 ≤ (rustSplitTerminator h.str '.').length →
    intercalateDot ((rustSplitTerminator h.str '.').drop 2) ≠ "core.windows.net" →
    intercalateDot ((rustSplitTerminator h.str '.').drop 2) ≠ "core.chinacloudapi.cn" →
    intercalateDot ((rustSplitTerminator h.str '.').drop 2) ≠ "core.usgovcloudapi.net" →
    (∀ p ip, u.port = some p →
      strStartsWith (trimStartSlash u.path) EMULATOR_ACCOUNT = true → h = .ipv4 ip →
      CloudLocation.tryFrom u = .ok (.Emulator ip p))
    ∧ (∀ p d, u.port = some p →
      strStartsWith (trimStartSlash u.path) EMULATOR_ACCOUNT = true → h = .domain d →
      CloudLocation.tryFrom u
        = .error (.dataConversion ("Unsupported emulator URL, expected ipv4: " ++ h.str)))
    ∧ (u.port = none →
      CloudLocation.tryFrom u = .error (.dataConversion
        ("URL refers to a domain that is not a Emulator, Public, China, or USGov domain: " ++ h.str)))
    ∧ (strStartsWith (trimStartSlash u.path) EMULATOR_ACCOUNT = false →
      CloudLocation.tryFrom u = .error (.dataConversion
        ("URL refers to a domain that is not a Emulator, Public, China, or USGov domain: " ++ h.str))) := by
  intro u t h hq hh hlen h1 h2 h3
  refine ⟨fun p ip hport hpath hip => ?_, fun p d hport hpath hdom => ?_,
    fun hport => ?_, fun hpath => ?_⟩
  · subst hip
    simp only [CloudLocation.tryFrom, hq, hh, StorageCredentials.sasToken, hport]
    rw [if_neg (by omega), if_neg h1, if_neg h2, if_neg h3, if_pos hpath]
  · subst hdom
    simp only [CloudLocation.tryFrom, hq, hh, StorageCredentials.sasToken, hport]
    rw [if_neg (by omega), if_neg h1, if_neg h2, if_neg h3, if_pos hpath]
  · simp only [CloudLocation.tryFrom, hq, hh, StorageCredentials.sasToken, hport]
    rw [if_neg (by omega), if_neg h1, if_neg h2, if_neg h3]
  · cases hport : u.port with
    | none =>
      simp only [CloudLocation.tryFrom, hq, hh, StorageCredentials.sasToken, hport]
      rw [if_neg (by omega), if_neg h1, if_neg h2, if_neg h3]
    | some p =>
      simp only [CloudLocation.tryFrom, hq, hh, StorageCredentials.sasToken, hport]
      rw [if_neg (by omega), if_neg h1, if_neg h2, if_neg h3,
        if_neg (by rw [hpath]; exact Bool.false_ne_true)]

/-- Witness for C6 at the parse of
`http://127.0.0.1:5555/devstoreaccount1/?token=1`. -/
theorem claim_C6_witness :
    CloudLocation.tryFrom urlRecEmu = .ok (.Emulator "127.0.0.1" 5555) := by
  have h := (claim_C6_emulator_fallback urlRecEmu "token=1" (.ipv4 "127.0.0.1")
    (by decide) (by decide) (by decide) (by decide) (by decide) (by decide)).1
    5555 "127.0.0.1" (by decide) (by decide) rfl
  exact h

/-- C9: whenever the reverse parse succeeds, the resulting location is
Public, China, USGov or Emulator — never Custom, never AutoDetect. -/
theorem claim_C9_no_custom :
    ∀ (u : Url) (loc : CloudLocation), CloudLocation.tryFrom u = .ok loc →
    (∃ a c, loc = .Public a c) ∨ (∃ a c, loc = .China a c)
    ∨ (∃ a c, loc = .USGov a c) ∨ (∃ addr p, loc = .Emulator addr p) := by
  intro u loc h
  unfold CloudLocation.tryFrom at h
  simp only [StorageCredentials.sasToken] at h
  repeat' split at h
  all_goals first
    | exact Except.noConfusion h
    | (injection h with h2
       exact Or.inl ⟨_, _, h2.symm⟩)
    | (injection h with h2
       exact Or.inr (Or.inl ⟨_, _, h2.symm⟩))
    | (injection h with h2
       exact Or.inr (Or.inr (Or.inl ⟨_, _, h2.symm⟩)))
    | (injection h with h2
       exact Or.inr (Or.inr (Or.inr ⟨_, _, h2.symm⟩)))

/-- Witness for C9 at the parse of
`https://test.blob.core.chinacloudapi.cn/?token=1`. -/
theorem claim_C9_witness :
    (∃ a c, (CloudLocation.China "test" (StorageCredentials.SASToken "token=1")) = .Public a c)
    ∨ (∃ a c, (CloudLocation.China "test" (StorageCredentials.SASToken "token=1")) = .China a c)
    ∨ (∃ a c, (CloudLocation.China "test" (StorageCredentials.SASToken "token=1")) = .USGov a c)
    ∨ (∃ addr p, (CloudLocation.China "test" (StorageCredentials.SASToken "token=1")) = .Emulator addr p) :=
  claim_C9_no_custom urlRecChina (.China "test" (.SASToken "token=1")) (by rfl)

/-! ## Support lemmas for the sovereign-cloud round trip -/

theorem hostChar_ne {c : Char} (d : Char) (h : hostChar c = true) (hd : hostChar d = false) :
    (c == d) = false := by
  cases hc : c == d
  · rfl
  · have he : c = d := eq_of_beq hc
    subst he
    rw [h] at hd
    exact Bool.noConfusion hd

theorem hostChar_stop3 {c : Char} (h : hostChar c = true) :
    (c == '/' || c == '?' || c == '#') = false := by
  rw [hostChar_ne '/' h (by decide), hostChar_ne '?' h (by decide),
    hostChar_ne '#' h (by decide)]
  rfl

theorem hostChar_colon {c : Char} (h : hostChar c = true) : (c == ':') = false :=
  hostChar_ne ':' h (by decide)

theorem hostChar_bad3 {c : Char} (h : hostChar c = true) :
    (c == '@' || c == '[' || c == ']') = false := by
  rw [hostChar_ne '@' h (by decide), hostChar_ne '[' h (by decide),
    hostChar_ne ']' h (by decide)]
  rfl

theorem spanNot_all {stop : Char → Bool} {l : List Char} (h : ∀ c ∈ l, stop c = false) :
    spanNot stop l = (l, []) := by
  induction l with
  | nil => rfl
  | cons c cs ih =>
    unfold spanNot
    rw [h c (List.mem_cons_self c cs), ih fun d hd => h d (List.mem_cons_of_mem c hd)]
    rfl

theorem splitOnCh_ne_nil (sep : Char) (l : List Char) : splitOnCh sep l ≠ [] := by
  cases l with
  | nil => exact fun hx => List.noConfusion hx
  | cons c cs =>
    unfold splitOnCh
    cases hr : splitOnCh sep cs with
    | nil => exact fun hx => List.noConfusion hx
    | cons r rs =>
      cases hc : c == sep <;> simp

theorem splitOnCh_append_cons (sep : Char) (l1 l2 : List Char)
    (h : ∀ c ∈ l1, (c == sep) = false) :
    splitOnCh sep (l1 ++ sep :: l2) = l1 :: splitOnCh sep l2 := by
  induction l1 with
  | nil =>
    show splitOnCh sep (sep :: l2) = [] :: splitOnCh sep l2
    rw [splitOnCh]
    cases hr : splitOnCh sep l2 with
    | nil => exact absurd hr (splitOnCh_ne_nil sep l2)
    | cons r rs => simp
  | cons c cs ih =>
    have hc : (c == sep) = false := h c (List.mem_cons_self c cs)
    have ihh := ih fun d hd => h d (List.mem_cons_of_mem c hd)
    show splitOnCh sep (c :: (cs ++ sep :: l2)) = (c :: cs) :: splitOnCh sep l2
    rw [splitOnCh, ihh]
    simp [hc]

theorem all_mem_of_all_eq_true {p : Char → Bool} {l : List Char} (h : l.all p = true) :
    ∀ c ∈ l, p c = true := by
  rw [List.all_eq_true] at h
  exact h

theorem any_bad_false {l : List Char} (h : l.all hostChar = true) :
    (l.any fun c => c == '@' || c == '[' || c == ']') = false := by
  rw [List.any_eq_false]
  intro c hc
  rw [hostChar_bad3 (all_mem_of_all_eq_true h c hc)]
  exact fun hx => Bool.noConfusion hx

theorem parseHost_domain (hostCs : List Char)
    (hne : hostCs.isEmpty = false)
    (hall : hostCs.all hostChar = true)
    (h4 : (splitOnCh '.' hostCs).length ≠ 4)
    (hlast : ((splitOnCh '.' hostCs).getLastD []).all Char.isDigit = false) :
    parseHost hostCs = some (.domain ⟨hostCs⟩) := by
  simp [parseHost, hne, hall, h4, hlast]
  intro _
  rw [List.getLastD_eq_getLast?] at hlast
  rcases List.all_eq_false.mp hlast with ⟨x, hx, hpx⟩
  exact ⟨x, hx, by simpa using hpx⟩

theorem parseChars_https (hostCs : List Char)
    (hall : hostCs.all hostChar = true)
    (hdom : parseHost hostCs = some (.domain ⟨hostCs⟩)) :
    parseChars ("https://".data ++ hostCs)
      = some ⟨"https", some (.domain ⟨hostCs⟩), none, "/", none⟩ := by
  have hmem : ∀ c ∈ hostCs, hostChar c = true := all_mem_of_all_eq_true hall
  have hspan3 : spanNot (fun c => c == '/' || c == '?' || c == '#') hostCs = (hostCs, []) :=
    spanNot_all fun c hc => hostChar_stop3 (hmem c hc)
  have hspanc : spanNot (fun c => c == ':') hostCs = (hostCs, []) :=
    spanNot_all fun c hc => hostChar_colon (hmem c hc)
  have hbad : (hostCs.any fun c => c == '@' || c == '[' || c == ']') = false :=
    any_bad_false hall
  have hscheme : spanNot (fun c => c == ':') ("https://".data ++ hostCs)
      = (['h', 't', 't', 'p', 's'], ':' :: '/' :: '/' :: hostCs) := rfl
  simp only [parseChars, hscheme, hspan3, hspanc, hbad, hdom, parseAuthority, parsePort]
  rfl

theorem tryFrom_public_suffix (u : Url) (t : String) (h : UrlHost)
    (hq : u.query = some t) (hh : u.host = some h)
    (hlen : 2 ≤ (rustSplitTerminator h.str '.').length)
    (hrest : intercalateDot ((rustSplitTerminator h.str '.').drop 2) = "core.windows.net") :
    CloudLocation.tryFrom u
      = .ok (.Public ((rustSplitTerminator h.str '.').headD "") (.SASToken t)) := by
  simp only [CloudLocation.tryFrom, hq, hh, StorageCredentials.sasToken]
  rw [if_neg (by omega), if_pos hrest]

theorem tryFrom_china_suffix (u : Url) (t : String) (h : UrlHost)
    (hq : u.query = some t) (hh : u.host = some h)
    (hlen : 2 ≤ (rustSplitTerminator h.str '.').length)
    (hrest : intercalateDot ((rustSplitTerminator h.str '.').drop 2) = "core.chinacloudapi.cn") :
    CloudLocation.tryFrom u
      = .ok (.China ((rustSplitTerminator h.str '.').headD "") (.SASToken t)) := by
  simp only [CloudLocation.tryFrom, hq, hh, StorageCredentials.sasToken, hrest]
  rw [if_neg (by omega)]
  rfl

theorem tryFrom_usgov_suffix (u : Url) (t : String) (h : UrlHost)
    (hq : u.query = some t) (hh : u.host = some h)
    (hlen : 2 ≤ (rustSplitTerminator h.str '.').length)
    (hrest : intercalateDot ((rustSplitTerminator h.str '.').drop 2) = "core.usgovcloudapi.net") :
    CloudLocation.tryFrom u
      = .ok (.USGov ((rustSplitTerminator h.str '.').headD "") (.SASToken t)) := by
  simp only [CloudLocation.tryFrom, hq, hh, StorageCredentials.sasToken, hrest]
  rw [if_neg (by omega)]
  rfl

theorem rustSplitTerminator_list (s : String)
    (hne : (splitOnCh '.' s.data).getLastD ['.'] ≠ []) :
    rustSplitTerminator s '.' = (splitOnCh '.' s.data).map (fun l => (⟨l⟩ : String)) := by
  simp only [rustSplitTerminator]
  rw [if_neg hne]

theorem accountChar_hostChar {c : Char} (h : accountChar c = true) : hostChar c = true := by
  cases hh : hostChar c
  · unfold accountChar at h
    rw [hh] at h
    exact absurd h (by simp)
  · rfl

theorem accountChar_ne_dot {c : Char} (h : accountChar c = true) : (c == '.') = false := by
  cases hd : c == '.'
  · rfl
  · unfold accountChar at h
    rw [hd] at h
    simp at h

theorem all_hostChar_of_all_accountChar {l : List Char} (h : l.all accountChar = true) :
    l.all hostChar = true := by
  rw [List.all_eq_true] at h ⊢
  exact fun c hc => accountChar_hostChar (h c hc)

theorem subdomain_accountChar (st : ServiceType) :
    st.subdomain.data.all accountChar = true := by
  cases st <;> decide

theorem sovereign_host_facts (acct sub : String) (sufCs s1 s2 s3 : List Char)
    (hacct : acct.data.all accountChar = true)
    (hsub : sub.data.all accountChar = true)
    (hsufall : sufCs.all hostChar = true)
    (hsplit : splitOnCh '.' sufCs = [s1, s2, s3])
    (hs3ne : s3 ≠ [])
    (hs3nd : s3.all Char.isDigit = false) :
    parseChars ("https://".data ++ (acct.data ++ '.' :: (sub.data ++ '.' :: sufCs)))
      = some ⟨"https",
          some (.domain ⟨acct.data ++ '.' :: (sub.data ++ '.' :: sufCs)⟩), none, "/", none⟩
    ∧ rustSplitTerminator (⟨acct.data ++ '.' :: (sub.data ++ '.' :: sufCs)⟩ : String) '.'
      = acct :: sub :: [⟨s1⟩, ⟨s2⟩, ⟨s3⟩] := by
  have hdots1 : ∀ c ∈ acct.data, (c == '.') = false :=
    fun c hc => accountChar_ne_dot (all_mem_of_all_eq_true hacct c hc)
  have hdots2 : ∀ c ∈ sub.data, (c == '.') = false :=
    fun c hc => accountChar_ne_dot (all_mem_of_all_eq_true hsub c hc)
  have hlabels : splitOnCh '.' (acct.data ++ '.' :: (sub.data ++ '.' :: sufCs))
      = acct.data :: sub.data :: [s1, s2, s3] := by
    rw [splitOnCh_append_cons '.' acct.data _ hdots1,
      splitOnCh_append_cons '.' sub.data _ hdots2, hsplit]
  have hall : (acct.data ++ '.' :: (sub.data ++ '.' :: sufCs)).all hostChar = true := by
    rw [List.all_eq_true]
    intro c hc
    rcases List.mem_append.mp hc with hc1 | hc2
    · exact accountChar_hostChar (all_mem_of_all_eq_true hacct c hc1)
    · rcases List.mem_cons.mp hc2 with rfl | hc3
      · decide
      · rcases List.mem_append.mp hc3 with hc4 | hc5
        · exact accountChar_hostChar (all_mem_of_all_eq_true hsub c hc4)
        · rcases List.mem_cons.mp hc5 with rfl | hc6
          · decide
          · exact all_mem_of_all_eq_true hsufall c hc6
  have hne : (acct.data ++ '.' :: (sub.data ++ '.' :: sufCs)).isEmpty = false := by
    cases hd : acct.data <;> rfl
  have h4 : (splitOnCh '.' (acct.data ++ '.' :: (sub.data ++ '.' :: sufCs))).length ≠ 4 := by
    rw [hlabels]
    simp
  have hlast : ((splitOnCh '.' (acct.data ++ '.' :: (sub.data ++ '.' :: sufCs))).getLastD []).all
      Char.isDigit = false := by
    rw [hlabels, List.getLastD_cons, List.getLastD_cons, List.getLastD_cons,
      List.getLastD_cons, List.getLastD_cons]
    exact hs3nd
  have hlastne : ((splitOnCh '.' (acct.data ++ '.' :: (sub.data ++ '.' :: sufCs))).getLastD
      ['.']) ≠ [] := by
    rw [hlabels, List.getLastD_cons, List.getLastD_cons, List.getLastD_cons,
      List.getLastD_cons, List.getLastD_cons]
    exact hs3ne
  constructor
  · exact parseChars_https _ hall (parseHost_domain _ hne hall h4 hlast)
  · rw [rustSplitTerminator_list _ hlastne]
    rw [show (⟨acct.data ++ '.' :: (sub.data ++ '.' :: sufCs)⟩ : String).data
        = acct.data ++ '.' :: (sub.data ++ '.' :: sufCs) from rfl]
    rw [hlabels]
    rfl

theorem strDataAppend (s t : String) : (s ++ t).data = s.data ++ t.data := rfl

theorem roundtrip_public (acct q : String) (st : ServiceType) (c : StorageCredentials)
    (env : EnvState) (hOk : accountOk acct = true) :
    ∃ u : Url, (CloudLocation.Public acct c).url env st = .ok u
      ∧ CloudLocation.tryFrom { u with query := some q } = .ok (.Public acct (.SASToken q))
      ∧ (CloudLocation.Public acct (.SASToken q)).url env st = .ok u := by
  have hacct : acct.data.all accountChar = true := hOk
  obtain ⟨hparse, hsplitT⟩ := sovereign_host_facts acct st.subdomain
    ("core.windows.net" : String).data ['c', 'o', 'r', 'e'] ['w', 'i', 'n', 'd', 'o', 'w', 's']
    ['n', 'e', 't'] hacct (subdomain_accountChar st) (by decide) (by decide) (by decide)
    (by decide)
  have hurl : ∀ cc : StorageCredentials, (CloudLocation.Public acct cc).url env st
      = .ok ⟨"https",
          some (.domain ⟨acct.data ++ '.' :: (st.subdomain.data ++ '.' ::
            ("core.windows.net" : String).data)⟩), none, "/", none⟩ := by
    intro cc
    rw [url_Public]
    have hd1 : ("." : String).data = ['.'] := rfl
    have hd2 : (".core.windows.net" : String).data
        = '.' :: ("core.windows.net" : String).data := rfl
    have hdata : ("https://" ++ acct ++ "." ++ st.subdomain ++ ".core.windows.net").data
        = ("https://" : String).data ++ (acct.data ++ '.' :: (st.subdomain.data ++ '.' ::
            ("core.windows.net" : String).data)) := by
      simp [strDataAppend, hd1, hd2]
    unfold urlParseResult Url.parse
    rw [hdata, hparse]
  have hstr : (UrlHost.domain (⟨acct.data ++ '.' :: (st.subdomain.data ++ '.' ::
      ("core.windows.net" : String).data)⟩ : String)).str
      = (⟨acct.data ++ '.' :: (st.subdomain.data ++ '.' ::
          ("core.windows.net" : String).data)⟩ : String) := rfl
  refine ⟨_, hurl c, ?_, hurl (.SASToken q)⟩
  have hlen : 2 ≤ (rustSplitTerminator (UrlHost.domain (⟨acct.data ++ '.' ::
      (st.subdomain.data ++ '.' :: ("core.windows.net" : String).data)⟩ : String)).str
      '.').length := by
    rw [hstr, hsplitT]
    simp
  have hrest : intercalateDot ((rustSplitTerminator (UrlHost.domain (⟨acct.data ++ '.' ::
      (st.subdomain.data ++ '.' :: ("core.windows.net" : String).data)⟩ : String)).str
      '.').drop 2) = "core.windows.net" := by
    rw [hstr, hsplitT]
    rfl
  have h := tryFrom_public_suffix
    ⟨"https", some (.domain ⟨acct.data ++ '.' :: (st.subdomain.data ++ '.' ::
      ("core.windows.net" : String).data)⟩), none, "/", some q⟩ q
    (.domain ⟨acct.data ++ '.' :: (st.subdomain.data ++ '.' ::
      ("core.windows.net" : String).data)⟩) rfl rfl hlen hrest
  rw [hstr, hsplitT] at h
  exact h

theorem roundtrip_china (acct q : String) (st : ServiceType) (c : StorageCredentials)
    (env : EnvState) (hOk : accountOk acct = true) :
    ∃ u : Url, (CloudLocation.China acct c).url env st = .ok u
      ∧ CloudLocation.tryFrom { u with query := some q } = .ok (.China acct (.SASToken q))
      ∧ (CloudLocation.China acct (.SASToken q)).url env st = .ok u := by
  have hacct : acct.data.all accountChar = true := hOk
  obtain ⟨hparse, hsplitT⟩ := sovereign_host_facts acct st.subdomain
    ("core.chinacloudapi.cn" : String).data ['c', 'o', 'r', 'e'] ['c', 'h', 'i', 'n', 'a', 'c', 'l', 'o', 'u', 'd', 'a', 'p', 'i']
    ['c', 'n'] hacct (subdomain_accountChar st) (by decide) (by decide) (by decide)
    (by decide)
  have hurl : ∀ cc : StorageCredentials, (CloudLocation.China acct cc).url env st
      = .ok ⟨"https",
          some (.domain ⟨acct.data ++ '.' :: (st.subdomain.data ++ '.' ::
            ("core.chinacloudapi.cn" : String).data)⟩), none, "/", none⟩ := by
    intro cc
    rw [url_China]
    have hd1 : ("." : String).data = ['.'] := rfl
    have hd2 : (".core.chinacloudapi.cn" : String).data
        = '.' :: ("core.chinacloudapi.cn" : String).data := rfl
    have hdata : ("https://" ++ acct ++ "." ++ st.subdomain ++ ".core.chinacloudapi.cn").data
        = ("https://" : String).data ++ (acct.data ++ '.' :: (st.subdomain.data ++ '.' ::
            ("core.chinacloudapi.cn" : String).data)) := by
      simp [strDataAppend, hd1, hd2]
    unfold urlParseResult Url.parse
    rw [hdata, hparse]
  have hstr : (UrlHost.domain (⟨acct.data ++ '.' :: (st.subdomain.data ++ '.' ::
      ("core.chinacloudapi.cn" : String).data)⟩ : String)).str
      = (⟨acct.data ++ '.' :: (st.subdomain.data ++ '.' ::
          ("core.chinacloudapi.cn" : String).data)⟩ : String) := rfl
  refine ⟨_, hurl c, ?_, hurl (.SASToken q)⟩
  have hlen : 2 ≤ (rustSplitTerminator (UrlHost.domain (⟨acct.data ++ '.' ::
      (st.subdomain.data ++ '.' :: ("core.chinacloudapi.cn" : String).data)⟩ : String)).str
      '.').length := by
    rw [hstr, hsplitT]
    simp
  have hrest : intercalateDot ((rustSplitTerminator (UrlHost.domain (⟨acct.data ++ '.' ::
      (st.subdomain.data ++ '.' :: ("core.chinacloudapi.cn" : String).data)⟩ : String)).str
      '.').drop 2) = "core.chinacloudapi.cn" := by
    rw [hstr, hsplitT]
    rfl
  have h := tryFrom_china_suffix
    ⟨"https", some (.domain ⟨acct.data ++ '.' :: (st.subdomain.data ++ '.' ::
      ("core.chinacloudapi.cn" : String).data)⟩), none, "/", some q⟩ q
    (.domain ⟨acct.data ++ '.' :: (st.subdomain.data ++ '.' ::
      ("core.chinacloudapi.cn" : String).data)⟩) rfl rfl hlen hrest
  rw [hstr, hsplitT] at h
  exact h

theorem roundtrip_usgov (acct q : String) (st : ServiceType) (c : StorageCredentials)
    (env : EnvState) (hOk : accountOk acct = true) :
    ∃ u : Url, (CloudLocation.USGov acct c).url env st = .ok u
      ∧ CloudLocation.tryFrom { u with query := some q } = .ok (.USGov acct (.SASToken q))
      ∧ (CloudLocation.USGov acct (.SASToken q)).url env st = .ok u := by
  have hacct : acct.data.all accountChar = true := hOk
  obtain ⟨hparse, hsplitT⟩ := sovereign_host_facts acct st.subdomain
    ("core.usgovcloudapi.net" : String).data ['c', 'o', 'r', 'e'] ['u', 's', 'g', 'o', 'v', 'c', 'l', 'o', 'u', 'd', 'a', 'p', 'i']
    ['n', 'e', 't'] hacct (subdomain_accountChar st) (by decide) (by decide) (by decide)
    (by decide)
  have hurl : ∀ cc : StorageCredentials, (CloudLocation.USGov acct cc).url env st
      = .ok ⟨"https",
          some (.domain ⟨acct.data ++ '.' :: (st.subdomain.data ++ '.' ::
            ("core.usgovcloudapi.net" : String).data)⟩), none, "/", none⟩ := by
    intro cc
    rw [url_USGov]
    have hd1 : ("." : String).data = ['.'] := rfl
    have hd2 : (".core.usgovcloudapi.net" : String).data
        = '.' :: ("core.usgovcloudapi.net" : String).data := rfl
    have hdata : ("https://" ++ acct ++ "." ++ st.subdomain ++ ".core.usgovcloudapi.net").data
        = ("https://" : String).data ++ (acct.data ++ '.' :: (st.subdomain.data ++ '.' ::
            ("core.usgovcloudapi.net" : String).data)) := by
      simp [strDataAppend, hd1, hd2]
    unfold urlParseResult Url.parse
    rw [hdata, hparse]
  have hstr : (UrlHost.domain (⟨acct.data ++ '.' :: (st.subdomain.data ++ '.' ::
      ("core.usgovcloudapi.net" : String).data)⟩ : String)).str
      = (⟨acct.data ++ '.' :: (st.subdomain.data ++ '.' ::
          ("core.usgovcloudapi.net" : String).data)⟩ : String) := rfl
  refine ⟨_, hurl c, ?_, hurl (.SASToken q)⟩
  have hlen : 2 ≤ (rustSplitTerminator (UrlHost.domain (⟨acct.data ++ '.' ::
      (st.subdomain.data ++ '.' :: ("core.usgovcloudapi.net" : String).data)⟩ : String)).str
      '.').length := by
    rw [hstr, hsplitT]
    simp
  have hrest : intercalateDot ((rustSplitTerminator (UrlHost.domain (⟨acct.data ++ '.' ::
      (st.subdomain.data ++ '.' :: ("core.usgovcloudapi.net" : String).data)⟩ : String)).str
      '.').drop 2) = "core.usgovcloudapi.net" := by
    rw [hstr, hsplitT]
    rfl
  have h := tryFrom_usgov_suffix
    ⟨"https", some (.domain ⟨acct.data ++ '.' :: (st.subdomain.data ++ '.' ::
      ("core.usgovcloudapi.net" : String).data)⟩), none, "/", some q⟩ q
    (.domain ⟨acct.data ++ '.' :: (st.subdomain.data ++ '.' ::
      ("core.usgovcloudapi.net" : String).data)⟩) rfl rfl hlen hrest
  rw [hstr, hsplitT] at h
  exact h

/-- C7 as amended: for each sovereign-cloud variant and every service
type, for accounts whose characters are host-admissible and contain no
dot, the composition round-trips: `url()` succeeds with some URL `u`,
reverse-parsing `u` with a query string attached yields the same
variant with the same account and SAS-token credentials carrying that
query string, and re-serializing that location yields exactly `u`
again (the query string being the only difference). -/
theorem claim_C7_roundtrip :
    ∀ (acct q : String) (st : ServiceType) (c : StorageCredentials) (env : EnvState),
    accountOk acct = true →
    (∃ u : Url, (CloudLocation.Public acct c).url env st = .ok u
      ∧ CloudLocation.tryFrom { u with query := some q } = .ok (.Public acct (.SASToken q))
      ∧ (CloudLocation.Public acct (.SASToken q)).url env st = .ok u)
    ∧ (∃ u : Url, (CloudLocation.China acct c).url env st = .ok u
      ∧ CloudLocation.tryFrom { u with query := some q } = .ok (.China acct (.SASToken q))
      ∧ (CloudLocation.China acct (.SASToken q)).url env st = .ok u)
    ∧ (∃ u : Url, (CloudLocation.USGov acct c).url env st = .ok u
      ∧ CloudLocation.tryFrom { u with query := some q } = .ok (.USGov acct (.SASToken q))
      ∧ (CloudLocation.USGov acct (.SASToken q)).url env st = .ok u) :=
  fun acct q st c env h =>
    ⟨roundtrip_public acct q st c env h, roundtrip_china acct q st c env h,
      roundtrip_usgov acct q st c env h⟩

/-- Witness for C7 at account `test`, service `Blob`, query `token=1`
(the concrete example of the claim). -/
theorem claim_C7_witness :
    ∃ u : Url, (CloudLocation.Public "test" .Anonymous).url env0 .Blob = .ok u
      ∧ CloudLocation.tryFrom { u with query := some "token=1" }
        = .ok (.Public "test" (.SASToken "token=1"))
      ∧ (CloudLocation.Public "test" (.SASToken "token=1")).url env0 .Blob = .ok u :=
  (claim_C7_roundtrip "test" "token=1" .Blob .Anonymous env0 (by decide)).1

/-- Counterexample for C7 as stated over EVERY account: for the account
`a.b` (which contains a dot), `url()` succeeds, but reverse-parsing the
produced URL with a query string attached fails with a data-conversion
error instead of returning a Public location with account `a.b` — the
first host label `a` would be taken as the account and the remaining
suffix `blob.core.windows.net` matches no known cloud. -/
theorem claim_C7_counterexample :
    (CloudLocation.Public "a.b" .Anonymous).url env0 .Blob = .ok urlRecAB
    ∧ CloudLocation.tryFrom { urlRecAB with query := some "token=1" }
      = .error (.dataConversion
          "URL refers to a domain that is not a Emulator, Public, China, or USGov domain: a.b.blob.core.windows.net") := by
  constructor
  · rw [url_Public]
    rfl
  · rfl
